import Mathlib

/-!
Verification of the numeric pipeline of the dot-com / AI valuation explorer
(`src/frontend/app.jsx`).  The file shallowly embeds the pipeline stages:
cell parsing, panel tidying, log aggregation, year alignment, moving-average
smoothing and the compound-growth scenario projector.  Machine floats are
modelled by exact rationals (`ℚ`) for the computable parts and by `ℝ`
wherever the source applies `Math.log` / `Math.exp`.
-/

namespace Bubble

/-- Tidy per-company-year record, matching the objects pushed by both
`tidyPanelJS` and `tidyPanel` in the source. -/
structure TidyRecord where
  Company : String
  Year : ℤ
  MarketCap : Option ℚ
  Revenue : Option ℚ
  ValRev : Option ℚ
deriving DecidableEq, Repr

/-! ## Cell text parsing (`parseNumber`, line 730, and `Number(x) || null`, line 103)

`Number(string)` is modelled in two layers: an integer-only scanner
`jsNumCore` producing mantissa / fraction-length / exponent data, and the
rational interpretation `JsNum.toRat`.  The split changes nothing
semantically; it keeps the scanner inside the kernel-computable fragment. -/

def isSpaceChar (c : Char) : Bool :=
  c == ' ' || c == '\t' || c == '\n' || c == '\r'

/-- `String.prototype.trim`, modelled on character lists. -/
def trimChars (cs : List Char) : List Char :=
  ((cs.dropWhile isSpaceChar).reverse.dropWhile isSpaceChar).reverse

def isHexDigitChar (c : Char) : Bool :=
  c.isDigit || ('a' ≤ c && c ≤ 'f') || ('A' ≤ c && c ≤ 'F')

def isOctDigitChar (c : Char) : Bool := '0' ≤ c && c ≤ '7'

def isBinDigitChar (c : Char) : Bool := c == '0' || c == '1'

/-- Numeric value of a (hex) digit character. -/
def hexVal (c : Char) : ℕ :=
  if c.isDigit then c.toNat - 48
  else if 'a' ≤ c ∧ c ≤ 'f' then c.toNat - 87
  else c.toNat - 55

def digitsValBase (base : ℕ) (cs : List Char) : ℕ :=
  cs.foldl (fun acc c => acc * base + hexVal c) 0

/-- A scanned JS numeric literal: the value is
`mant / 10 ^ fdigits * 10 ^ exp`. -/
structure JsNum where
  mant : ℤ
  fdigits : ℕ
  exp : ℤ
deriving DecidableEq, Repr

def JsNum.toRat (n : JsNum) : ℚ :=
  (n.mant : ℚ) / 10 ^ n.fdigits * 10 ^ n.exp

/-- Exponent suffix of a JS decimal literal: empty, or `e`/`E`, an optional
sign, and a nonempty digit run consuming the rest of the string. -/
def parseExpPart : List Char → Option ℤ
  | [] => some 0
  | c :: rest =>
    if c = 'e' ∨ c = 'E' then
      match rest with
      | '+' :: ds =>
          if ds ≠ [] ∧ ds.all Char.isDigit then some (digitsValBase 10 ds) else none
      | '-' :: ds =>
          if ds ≠ [] ∧ ds.all Char.isDigit then some (-(digitsValBase 10 ds : ℤ)) else none
      | ds =>
          if ds ≠ [] ∧ ds.all Char.isDigit then some (digitsValBase 10 ds) else none
    else none

/-- JS decimal literal after the optional sign: `digits [. digits] [exp]` or
`. digits [exp]`; anything left over makes the whole string NaN (`none`).
The mantissa collects integer and fraction digits. -/
def parseDecChars (cs : List Char) : Option JsNum :=
  let ip := cs.takeWhile Char.isDigit
  let rest1 := cs.dropWhile Char.isDigit
  match rest1 with
  | '.' :: rest2 =>
    let fp := rest2.takeWhile Char.isDigit
    let rest3 := rest2.dropWhile Char.isDigit
    if ip = [] ∧ fp = [] then none
    else (parseExpPart rest3).map (fun e =>
      ⟨(digitsValBase 10 (ip ++ fp) : ℤ), fp.length, e⟩)
  | _ =>
    if ip = [] then none
    else (parseExpPart rest1).map (fun e => ⟨(digitsValBase 10 ip : ℤ), 0, e⟩)

def infinityChars : List Char := ['I', 'n', 'f', 'i', 'n', 'i', 't', 'y']

/-- ECMAScript `Number(string)` restricted to finite results: NaN and
±Infinity both become `none` (the source always guards against non-finite
results with `Number.isFinite`, or feeds cells whose text cannot denote an
infinity). -/
def jsNumCore (cs0 : List Char) : Option JsNum :=
  let cs := trimChars cs0
  match cs with
  | [] => some ⟨0, 0, 0⟩
  | '+' :: rest => if rest = infinityChars then none else parseDecChars rest
  | '-' :: rest =>
      if rest = infinityChars then none
      else (parseDecChars rest).map (fun n => ⟨-n.mant, n.fdigits, n.exp⟩)
  | '0' :: c :: rest =>
    if c = 'x' ∨ c = 'X' then
      if rest ≠ [] ∧ rest.all isHexDigitChar then some ⟨(digitsValBase 16 rest : ℤ), 0, 0⟩
      else none
    else if c = 'o' ∨ c = 'O' then
      if rest ≠ [] ∧ rest.all isOctDigitChar then some ⟨(digitsValBase 8 rest : ℤ), 0, 0⟩
      else none
    else if c = 'b' ∨ c = 'B' then
      if rest ≠ [] ∧ rest.all isBinDigitChar then some ⟨(digitsValBase 2 rest : ℤ), 0, 0⟩
      else none
    else parseDecChars cs
  | _ => if cs = infinityChars then none else parseDecChars cs

/-- `Number(string)` as a rational, `none` for NaN and ±Infinity.  Values
are exact rationals rather than binary64 floats. -/
def jsNumberChars (cs : List Char) : Option ℚ :=
  (jsNumCore cs).map JsNum.toRat

/-- `String(value).replace(/,/g, '').replace(/"/g, '').trim()` from
`parseNumber` (line 732). -/
def cleanCellChars (cs : List Char) : List Char :=
  trimChars (cs.filter (fun c => !(c == ',') && !(c == '"')))

/-- `parseNumber` (lines 730-736).  A missing cell (`undefined`/`null`) is
`none`; cells are modelled as their text. -/
def parseNumber (value : Option String) : Option ℚ :=
  match value with
  | none => none
  | some s =>
    let clean := cleanCellChars s.data
    if clean = [] then none
    else if clean.map Char.toLower = ['n', '/', 'a'] then none
    else jsNumberChars clean

/-- The inline parse `Number(mcRow[col]) || null` used by `tidyPanelJS`
(lines 103-105): NaN and the number 0 both collapse to `null`. -/
def tidyNum (value : Option String) : Option ℚ :=
  match value with
  | none => none
  | some s =>
    match jsNumberChars s.data with
    | none => none
    | some q => if q = 0 then none else some q

/-! Evaluation helpers: push a concrete parse through the decidable core,
leaving only a tiny rational computation to `norm_num`. -/

theorem parseNumber_eval (s : String) (n : JsNum)
    (h1 : ¬ cleanCellChars s.data = [])
    (h2 : ¬ (cleanCellChars s.data).map Char.toLower = ['n', '/', 'a'])
    (h3 : jsNumCore (cleanCellChars s.data) = some n) :
    parseNumber (some s) = some n.toRat := by
  simp only [parseNumber, jsNumberChars, h3, if_neg h1, if_neg h2, Option.map_some']

theorem tidyNum_eval (s : String) (n : JsNum)
    (h3 : jsNumCore s.data = some n) :
    tidyNum (some s) = if n.toRat = 0 then none else some n.toRat := by
  simp only [tidyNum, jsNumberChars, h3, Option.map_some']

/-! ## Panel tidier (`tidyPanel`, lines 745-770) -/

/-- `Array.prototype.indexOf`: first index of `s`, `-1` when absent. -/
def jsIndexOf : List String → String → ℤ
  | [], _ => -1
  | a :: rest, s =>
    if a = s then 0
    else
      let r := jsIndexOf rest s
      if r = -1 then -1 else r + 1

/-- `row[i]` for a possibly negative index: JS yields `undefined` (here
`none`) for `-1` and out-of-range accesses. -/
def getCell (row : List String) (i : ℤ) : Option String :=
  if 0 ≤ i then row[i.toNat]? else none

/-- One record of `tidyPanel`'s inner `years.forEach` (lines 758-764): the
block is the market-cap, revenue and valuation/revenue rows. -/
def blockRecord (header : List String) (b : List String × List String × List String)
    (y : ℤ) : TidyRecord :=
  let col := jsIndexOf header (toString y)
  { Company := b.1.head?.getD ""
    Year := y
    MarketCap := parseNumber (getCell b.1 col)
    Revenue := parseNumber (getCell b.2.1 col)
    ValRev := parseNumber (getCell b.2.2 col) }

/-- The block segmentation performed by `tidyPanel`'s cursor loop: a row
with an empty (or absent) first cell is skipped, a row with a non-empty
company cell starts a three-row block (`rows[i]`, `rows[i+1] || []`,
`rows[i+2] || []`) and the cursor jumps past it. -/
def blockRows : List (List String) → List (List String × List String × List String)
  | [] => []
  | row :: rest =>
    if row.head?.getD "" = "" then blockRows rest
    else
      match rest with
      | [] => [(row, [], [])]
      | r1 :: [] => [(row, r1, [])]
      | r1 :: r2 :: rest2 => (row, r1, r2) :: blockRows rest2

/-- Body loop of `tidyPanel` (lines 751-767), starting after the header. -/
def tidyBlocks (header : List String) (years : List ℤ) :
    List (List String) → List TidyRecord
  | [] => []
  | row :: rest =>
    if row.head?.getD "" = "" then tidyBlocks header years rest
    else
      match rest with
      | [] => years.map (blockRecord header (row, [], []))
      | r1 :: [] => years.map (blockRecord header (row, r1, []))
      | r1 :: r2 :: rest2 =>
        years.map (blockRecord header (row, r1, r2)) ++ tidyBlocks header years rest2

/-- `tidyPanel` (lines 745-770): empty input yields `[]`, otherwise the
first row is the header and the rest is scanned in blocks. -/
def tidyPanel (rows : List (List String)) (years : List ℤ) : List TidyRecord :=
  match rows with
  | [] => []
  | header :: body => tidyBlocks header years body

/-! ## Log aggregator (`computeAvgLogPsByYear`, lines 116-133, and
`groupMeanByYear`, lines 776-792) -/

/-- Validity filter of `computeAvgLogPsByYear` (line 119):
`r.ValRev && r.ValRev > 0` keeps a value iff it is present and positive
(`null` and `0` are falsy, non-positive fails the comparison). -/
def validValRev (r : TidyRecord) : Option ℚ :=
  match r.ValRev with
  | none => none
  | some v => if 0 < v then some v else none

/-- Validity filter of `groupMeanByYear` (line 779):
`if (!row.ValRev || row.ValRev <= 0) return;`. -/
def validValRev2 (r : TidyRecord) : Option ℚ :=
  match r.ValRev with
  | none => none
  | some v => if v = 0 then none else if v ≤ 0 then none else some v

/-- The values pushed for year `y`, in record order (the `byYear` map of
lines 117-123). -/
def yearGroup (records : List TidyRecord) (y : ℤ) : List ℚ :=
  records.filterMap (fun r => if r.Year = y then validValRev r else none)

/-- `Array.from(byYear.keys()).sort((a, b) => a - b)` (line 125): the
distinct years holding at least one valid value, sorted ascending.  The
JS map's insertion order is irrelevant after the numeric sort, so the
distinct set is computed by `dedup` here. -/
def aggYears (records : List TidyRecord) : List ℤ :=
  List.insertionSort (· ≤ ·)
    ((records.filterMap (fun r => (validValRev r).map (fun _ => r.Year))).dedup)

/-- `arr.reduce((s, v) => s + v, 0) / arr.length` (line 128). -/
def listMean (l : List ℚ) : ℚ := l.sum / l.length

/-- `computeAvgLogPsByYear` (lines 116-133): sorted valid years paired with
the natural log of each year's linear-scale mean. -/
noncomputable def computeAvgLogPsByYear (records : List TidyRecord) : List ℤ × List ℝ :=
  (aggYears records,
    (aggYears records).map (fun y => Real.log ((listMean (yearGroup records y) : ℚ) : ℝ)))

def yearGroup2 (records : List TidyRecord) (y : ℤ) : List ℚ :=
  records.filterMap (fun r => if r.Year = y then validValRev2 r else none)

def aggYears2 (records : List TidyRecord) : List ℤ :=
  List.insertionSort (· ≤ ·)
    ((records.filterMap (fun r => (validValRev2 r).map (fun _ => r.Year))).dedup)

/-- `groupMeanByYear` (lines 776-792), the second variant's aggregator. -/
noncomputable def groupMeanByYear (records : List TidyRecord) : List ℤ × List ℝ :=
  (aggYears2 records,
    (aggYears2 records).map (fun y => Real.log ((listMean (yearGroup2 records y) : ℚ) : ℝ)))

/-! ## Series aligner (`makeAligned`, lines 475-478, and the union axis of
lines 472-473 / 888) -/

/-- One cohort series: `{ years, values }` as produced by the aggregator. -/
structure YearSeries where
  years : List ℤ
  values : List ℝ

/-- `new Map(years.map((y, i) => [y, values[i]])).get(y)`: on duplicate
keys the later entry wins, as in a JS `Map`. -/
def mapGet : List (ℤ × ℝ) → ℤ → Option ℝ
  | [], _ => none
  | (k, v) :: rest, y =>
    match mapGet rest y with
    | some w => some w
    | none => if k = y then some v else none

/-- `Array.from(new Set([...years lists])).sort((a, b) => a - b)`: sorted
union of year axes, duplicates removed. -/
def unionYears (yearLists : List (List ℤ)) : List ℤ :=
  List.insertionSort (· ≤ ·) ((yearLists.foldr (· ++ ·) []).dedup)

/-- `makeAligned` (lines 475-478): values repositioned on the union axis,
`null` where the series has no entry for the year. -/
def makeAligned (axis : List ℤ) (years : List ℤ) (values : List ℝ) : List (Option ℝ) :=
  axis.map (fun y => mapGet (years.zip values) y)

/-! ## Smoother (`movingAverage`, lines 17-28) -/

/-- `Number(avg.toFixed(4))`: round to four decimal places, ties away from
zero for positive arguments (ECMAScript picks the larger candidate). -/
def roundTo4 (x : ℚ) : ℚ := (⌊x * 10000 + 1 / 2⌋ : ℚ) / 10000

/-- `arr.slice(start, end)` for the clipped window
`[max(0, i − ⌊w/2⌋), min(len, i + ⌈w/2⌉))` (lines 21-23); natural
subtraction supplies the `max 0` clip. -/
def windowSlice (arr : List (Option ℚ)) (i w : ℕ) : List (Option ℚ) :=
  let start := i - w / 2
  let stop := min arr.length (i + (w + 1) / 2)
  (arr.drop start).take (stop - start)

/-- The body of the smoother's `map` callback (lines 19-27). -/
def smoothAt (arr : List (Option ℚ)) (w i : ℕ) : Option ℚ → Option ℚ
  | none => none
  | some _ =>
    let s := (windowSlice arr i w).filterMap id
    if s.length = 0 then none
    else some (roundTo4 (s.sum / s.length))

/-- `movingAverage` (lines 17-28): identity for `window <= 1`, otherwise
a windowed mean per position over the original array. -/
def movingAverage (values : List (Option ℚ)) (window : ℕ) : List (Option ℚ) :=
  if window ≤ 1 then values
  else (List.range values.length).map (fun i => smoothAt values window i (values[i]?.getD none))

/-- The window of §4.4 of the spec, read off positions: the non-null
values at indices `j` with `max(0, i − ⌊w/2⌋) ≤ j < min(len, i + ⌈w/2⌉)`. -/
def specWindowVals (values : List (Option ℚ)) (w i : ℕ) : List ℚ :=
  (List.range' (i - w / 2) (min values.length (i + (w + 1) / 2) - (i - w / 2))).filterMap
    (fun j => (values[j]?).bind id)

/-! ## Scenario projector (`scenario`, lines 507-523) -/

/-- The projection loop (lines 517-521), generalised over the start year
and the horizon length: each step multiplies the running linear value by
`1 + g / 100` and records the log for that year.  The source instantiates
it with years 2025..2032, i.e. `scenarioFrom 2025 8`. -/
noncomputable def scenarioFrom (year : ℤ) (n : ℕ) (currentPs : ℝ) (g : ℚ) :
    List ℤ × List ℝ :=
  match n with
  | 0 => ([], [])
  | m + 1 =>
    let next := currentPs * (1 + (g : ℝ) / 100)
    let rest := scenarioFrom (year + 1) m next g
    (year :: rest.1, Real.log next :: rest.2)

/-- `scenario` (lines 507-523): the last non-null aligned Big-Tech value is
exponentiated back to a linear multiple and compounded over 2025..2032;
with no valid observation the result is empty. -/
noncomputable def scenario (bigTech : List (Option ℝ)) (g : ℚ) : List ℤ × List ℝ :=
  match (bigTech.filterMap id).getLast? with
  | none => ([], [])
  | some lastLog => scenarioFrom 2025 8 (Real.exp lastLog) g

/-- The cohort's last observed year: the year of the last non-null aligned
value.  (The source never computes this; the spec's ScenarioSeries
invariant refers to it.) -/
def lastObservedYear (years : List ℤ) (vals : List (Option ℝ)) : Option ℤ :=
  ((years.zip vals).filterMap (fun p => p.2.map (fun _ => p.1))).getLast?

/-! ## Smoother lemmas -/

theorem drop_take_eq_range' {α : Type} (arr : List α) :
    ∀ (n s : ℕ), (arr.drop s).take n = (List.range' s n).filterMap (fun j => arr[j]?) := by
  intro n
  induction n with
  | zero => intro s; simp
  | succ m ih =>
    intro s
    rw [List.range'_succ, List.filterMap_cons]
    by_cases hs : s < arr.length
    · rw [List.drop_eq_getElem_cons hs, List.take_succ_cons,
        List.getElem?_eq_getElem hs, ih (s + 1)]
    · push_neg at hs
      rw [List.drop_eq_nil_of_le hs, List.take_nil, List.getElem?_eq_none hs]
      symm
      rw [List.filterMap_eq_nil_iff]
      intro j hj
      rw [List.mem_range'_1] at hj
      exact List.getElem?_eq_none (le_trans hs (by omega))

theorem windowSlice_filterMap (arr : List (Option ℚ)) (w i : ℕ) :
    (windowSlice arr i w).filterMap id = specWindowVals arr w i := by
  rw [windowSlice, specWindowVals, drop_take_eq_range', List.filterMap_filterMap]

theorem movingAverage_getElem? (values : List (Option ℚ)) (w : ℕ) (hw : ¬ w ≤ 1)
    (i : ℕ) (h : i < values.length) :
    (movingAverage values w)[i]? = some (smoothAt values w i (values[i]?.getD none)) := by
  rw [movingAverage, if_neg hw, List.getElem?_map, List.getElem?_range h, Option.map_some']

theorem smoothAt_some (arr : List (Option ℚ)) (w i : ℕ) (x : ℚ) :
    smoothAt arr w i (some x)
      = if (specWindowVals arr w i).length = 0 then none
        else some (roundTo4
          ((specWindowVals arr w i).sum / (specWindowVals arr w i).length)) := by
  rw [smoothAt]
  simp only [windowSlice_filterMap]

theorem mem_specWindowVals_self (values : List (Option ℚ)) (w i : ℕ) (hw : 1 ≤ w)
    (x : ℚ) (hx : values[i]? = some (some x)) : x ∈ specWindowVals values w i := by
  have hi : i < values.length := by
    by_contra hge
    rw [List.getElem?_eq_none (by omega)] at hx
    exact Option.noConfusion hx
  rw [specWindowVals]
  apply List.mem_filterMap.mpr
  refine ⟨i, ?_, by rw [hx]; rfl⟩
  rw [List.mem_range'_1]
  have h1 : i - w / 2 ≤ i := Nat.sub_le _ _
  have h2 : i < min values.length (i + (w + 1) / 2) := by
    have : 1 ≤ (w + 1) / 2 := by omega
    omega
  omega

/-- C9: smoothing with window size 1 returns the input unchanged, nulls
included (`if (window <= 1) return values;`, line 18). -/
theorem C9_smoother_identity (values : List (Option ℚ)) :
    movingAverage values 1 = values := by
  simp [movingAverage]

/-- C10: the smoothed sequence is null at a position exactly when the source
is null there; a non-null source value always lies inside its own clipped
window, so the empty-window branch can never fire at a non-null position. -/
theorem C10_smoother_null_iff (values : List (Option ℚ)) (w : ℕ) (i : ℕ) :
    (movingAverage values w)[i]? = some none ↔ values[i]? = some none := by
  by_cases hw : w ≤ 1
  · rw [movingAverage, if_pos hw]
  · by_cases h : i < values.length
    · rw [movingAverage_getElem? values w hw i h]
      rcases hval : values[i]? with _ | val
      · exact absurd hval (by simp [List.getElem?_eq_getElem h])
      rcases val with _ | x
      · simp [smoothAt]
      · have hmem := mem_specWindowVals_self values w i (by omega) x hval
        have hne : ¬ (specWindowVals values w i).length = 0 := by
          intro h0
          rw [List.length_eq_zero] at h0
          rw [h0] at hmem
          exact (List.not_mem_nil x) hmem
        simp only [Option.getD_some, smoothAt_some, if_neg hne]
        simp
    · push_neg at h
      rw [List.getElem?_eq_none h,
        List.getElem?_eq_none (show (movingAverage values w).length ≤ i from by
          rw [movingAverage, if_neg hw]
          simpa using h)]

/-- C3 counterexample: for source `[0, 0, 1]` and window 3 the claim's exact
window mean at position 1 is `1/3`, but the code returns the `toFixed(4)`
rounding `0.3333`; so the smoothed value is not the arithmetic mean. -/
theorem C3_smoother_counterexample :
    (movingAverage [some 0, some 0, some 1] 3)[1]? = some (some (3333 / 10000))
    ∧ specWindowVals [some 0, some 0, some 1] 3 1 = [0, 0, 1]
    ∧ ((3333 : ℚ) / 10000) ≠ (0 + 0 + 1) / 3 := by
  refine ⟨?_, by decide, by norm_num⟩
  have h1 : (movingAverage [some 0, some 0, some 1] 3)[1]?
      = some (smoothAt [some 0, some 0, some 1] 3 1 (some 0)) := rfl
  rw [h1, smoothAt_some,
    show specWindowVals [some 0, some 0, some 1] 3 1 = [0, 0, 1] from by decide]
  norm_num [roundTo4]

/-- C3 as amended: the smoother keeps the length, keeps nulls, is the
identity at W = 1, and at a non-null position with W ≥ 2 returns the
arithmetic mean of the non-null values in the clipped window
`[max(0, i − ⌊W/2⌋), min(len, i + ⌈W/2⌉))` **rounded to four decimal
places** (`Number(avg.toFixed(4))`), null when the window holds no
non-null value. -/
theorem C3_smoother_amended (values : List (Option ℚ)) (w : ℕ) (hw : 2 ≤ w) :
    (movingAverage values w).length = values.length
    ∧ movingAverage values 1 = values
    ∧ (∀ (i : ℕ), values[i]? = some none → (movingAverage values w)[i]? = some none)
    ∧ (∀ (i : ℕ) (x : ℚ), values[i]? = some (some x) →
        (movingAverage values w)[i]? =
          some (if (specWindowVals values w i).length = 0 then none
            else some (roundTo4
              ((specWindowVals values w i).sum / (specWindowVals values w i).length)))) := by
  have hw1 : ¬ w ≤ 1 := by omega
  refine ⟨?_, by simp [movingAverage], ?_, ?_⟩
  · rw [movingAverage, if_neg hw1, List.length_map, List.length_range]
  · intro i hi
    have h : i < values.length := by
      by_contra hge
      rw [List.getElem?_eq_none (by omega)] at hi
      exact Option.noConfusion hi
    rw [movingAverage_getElem? values w hw1 i h, hi]
    rfl
  · intro i x hi
    have h : i < values.length := by
      by_contra hge
      rw [List.getElem?_eq_none (by omega)] at hi
      exact Option.noConfusion hi
    rw [movingAverage_getElem? values w hw1 i h, hi]
    simp only [Option.getD_some, smoothAt_some]

/-- Witness for C3's amended theorem at `values = [some 1]`, `w = 2`. -/
theorem C3_smoother_amended_witness :
    (movingAverage [some (1 : ℚ)] 2).length = [some (1 : ℚ)].length
    ∧ movingAverage [some (1 : ℚ)] 1 = [some (1 : ℚ)]
    ∧ (∀ (i : ℕ), [some (1 : ℚ)][i]? = some none
        → (movingAverage [some (1 : ℚ)] 2)[i]? = some none)
    ∧ (∀ (i : ℕ) (x : ℚ), [some (1 : ℚ)][i]? = some (some x) →
        (movingAverage [some (1 : ℚ)] 2)[i]? =
          some (if (specWindowVals [some (1 : ℚ)] 2 i).length = 0 then none
            else some (roundTo4
              ((specWindowVals [some (1 : ℚ)] 2 i).sum
                / (specWindowVals [some (1 : ℚ)] 2 i).length)))) :=
  C3_smoother_amended [some (1 : ℚ)] 2 (by decide)

/-! ## Aggregator lemmas -/

theorem validValRev_eq (r : TidyRecord) : validValRev2 r = validValRev r := by
  rw [validValRev, validValRev2]
  rcases r.ValRev with _ | v
  · rfl
  · dsimp only
    rcases lt_trichotomy v 0 with h | h | h
    · rw [if_neg (ne_of_lt h), if_pos (le_of_lt h), if_neg (not_lt.mpr (le_of_lt h))]
    · rw [h]
      simp
    · rw [if_neg (ne_of_gt h), if_neg (not_le.mpr h), if_pos h]

theorem yearGroup_eq (records : List TidyRecord) (y : ℤ) :
    yearGroup2 records y = yearGroup records y := by
  rw [yearGroup, yearGroup2]
  simp only [validValRev_eq]

theorem aggYears_eq (records : List TidyRecord) : aggYears2 records = aggYears records := by
  rw [aggYears, aggYears2]
  simp only [validValRev_eq]

theorem aggYears_sorted (records : List TidyRecord) :
    (aggYears records).Sorted (· < ·) := by
  have hn : (aggYears records).Nodup := by
    rw [aggYears]
    exact ((List.perm_insertionSort _ _).nodup_iff).mpr (List.nodup_dedup _)
  exact List.Sorted.lt_of_le (List.sorted_insertionSort _ _) hn

theorem mem_aggYears (records : List TidyRecord) (y : ℤ) :
    y ∈ aggYears records
      ↔ ∃ r ∈ records, r.Year = y ∧ ∃ v, r.ValRev = some v ∧ 0 < v := by
  rw [aggYears, (List.perm_insertionSort _ _).mem_iff, List.mem_dedup, List.mem_filterMap]
  constructor
  · rintro ⟨r, hr, hmap⟩
    rw [Option.map_eq_some'] at hmap
    rcases hmap with ⟨v, hv, hy⟩
    rw [validValRev] at hv
    rcases hval : r.ValRev with _ | w
    · rw [hval] at hv
      exact Option.noConfusion hv
    · rw [hval] at hv
      dsimp only at hv
      by_cases hw : 0 < w
      · exact ⟨r, hr, hy, w, hval, hw⟩
      · rw [if_neg hw] at hv
        exact Option.noConfusion hv
  · rintro ⟨r, hr, hy, v, hv, hpos⟩
    refine ⟨r, hr, ?_⟩
    rw [validValRev, hv]
    dsimp only
    rw [if_pos hpos, Option.map_some']
    exact congrArg some hy

theorem validValRev_eq_none_iff (r : TidyRecord) :
    validValRev r = none ↔ ∀ v, r.ValRev = some v → v ≤ 0 := by
  rw [validValRev]
  rcases hval : r.ValRev with _ | w
  · simp
  · dsimp only
    constructor
    · intro h v hv
      rcases Option.some.inj hv with rfl
      by_cases hw : 0 < w
      · rw [if_pos hw] at h
        exact Option.noConfusion h
      · exact not_lt.mp hw
    · intro h
      rw [if_neg (not_lt.mpr (h w rfl))]

theorem aggYears_eq_nil_iff (records : List TidyRecord) :
    aggYears records = [] ↔ ∀ r ∈ records, validValRev r = none := by
  rw [aggYears]
  constructor
  · intro h
    have hp := List.perm_insertionSort (· ≤ ·)
      ((records.filterMap (fun r => (validValRev r).map (fun _ => r.Year))).dedup)
    rw [h] at hp
    have hd := hp.symm.eq_nil
    rw [List.dedup_eq_nil, List.filterMap_eq_nil_iff] at hd
    intro r hr
    exact Option.map_eq_none'.mp (hd r hr)
  · intro h
    have : records.filterMap (fun r => (validValRev r).map (fun _ => r.Year)) = [] := by
      rw [List.filterMap_eq_nil_iff]
      intro r hr
      rw [h r hr]
      rfl
    rw [this]
    rfl

/-- C1: mean-mode log aggregation groups `valRev` by year keeping only
present, strictly positive values, lists exactly the sorted distinct years
holding at least one valid value, reports `log` of each year's linear-scale
mean (log-of-mean), yields `([], [])` on input with no valid observation,
and the second variant `groupMeanByYear` computes the same function. -/
theorem C1_log_aggregator (records : List TidyRecord) :
    (computeAvgLogPsByYear records).1.Sorted (· < ·)
    ∧ (∀ y : ℤ, y ∈ (computeAvgLogPsByYear records).1
        ↔ ∃ r ∈ records, r.Year = y ∧ ∃ v, r.ValRev = some v ∧ 0 < v)
    ∧ (computeAvgLogPsByYear records).2
        = (computeAvgLogPsByYear records).1.map
            (fun y => Real.log (((yearGroup records y).sum / (yearGroup records y).length : ℚ) : ℝ))
    ∧ (computeAvgLogPsByYear records = ([], [])
        ↔ ∀ r ∈ records, ∀ v, r.ValRev = some v → v ≤ 0)
    ∧ groupMeanByYear records = computeAvgLogPsByYear records := by
  refine ⟨aggYears_sorted records, mem_aggYears records, rfl, ?_, ?_⟩
  · have hpair : computeAvgLogPsByYear records = ([], []) ↔ aggYears records = [] := by
      rw [computeAvgLogPsByYear, Prod.mk.injEq]
      constructor
      · intro h
        exact h.1
      · intro h
        rw [h]
        exact ⟨rfl, rfl⟩
    rw [hpair, aggYears_eq_nil_iff]
    constructor
    · intro h r hr
      exact (validValRev_eq_none_iff r).mp (h r hr)
    · intro h r hr
      exact (validValRev_eq_none_iff r).mpr (h r hr)
  · rw [groupMeanByYear, computeAvgLogPsByYear, aggYears_eq]
    simp only [yearGroup_eq]

/-! ## Aligner lemmas -/

theorem mem_foldr_append (L : List (List ℤ)) (z : ℤ) :
    z ∈ L.foldr (· ++ ·) [] ↔ ∃ l ∈ L, z ∈ l := by
  induction L with
  | nil => simp
  | cons l L ih => simp [List.mem_append, ih]

theorem unionYears_sorted (L : List (List ℤ)) : (unionYears L).Sorted (· < ·) := by
  have hn : (unionYears L).Nodup := by
    rw [unionYears]
    exact ((List.perm_insertionSort _ _).nodup_iff).mpr (List.nodup_dedup _)
  exact List.Sorted.lt_of_le (List.sorted_insertionSort _ _) hn

theorem mem_unionYears (L : List (List ℤ)) (z : ℤ) :
    z ∈ unionYears L ↔ ∃ l ∈ L, z ∈ l := by
  rw [unionYears, (List.perm_insertionSort _ _).mem_iff, List.mem_dedup, mem_foldr_append]

theorem mapGet_eq_none (ps : List (ℤ × ℝ)) (y : ℤ) (h : ∀ p ∈ ps, p.1 ≠ y) :
    mapGet ps y = none := by
  induction ps with
  | nil => rfl
  | cons p rest ih =>
    rcases p with ⟨k, v⟩
    rw [mapGet, ih (fun q hq => h q (List.mem_cons_of_mem _ hq))]
    exact if_neg (h (k, v) (List.mem_cons_self _ _))

theorem mapGet_eq_some (ps : List (ℤ × ℝ)) (y : ℤ) (v : ℝ)
    (hnd : (ps.map Prod.fst).Nodup) (hmem : (y, v) ∈ ps) : mapGet ps y = some v := by
  induction ps with
  | nil => exact absurd hmem (List.not_mem_nil _)
  | cons p rest ih =>
    rcases p with ⟨k, w⟩
    rw [List.map_cons, List.nodup_cons] at hnd
    rcases List.mem_cons.mp hmem with heq | hmem'
    · obtain ⟨rfl, rfl⟩ := Prod.mk.inj heq
      rw [mapGet, mapGet_eq_none rest y ?hk]
      case hk =>
        intro p hp hpy
        apply hnd.1
        rw [← hpy]
        exact List.mem_map.mpr ⟨p, hp, rfl⟩
      exact if_pos rfl
    · rw [mapGet, ih hnd.2 hmem']

theorem zip_fst_sublist {α β : Type} :
    ∀ (l1 : List α) (l2 : List β), ((l1.zip l2).map Prod.fst).Sublist l1
  | [], _ => by simp
  | a :: l1, [] => by simp
  | a :: l1, b :: l2 => by
    rw [List.zip_cons_cons, List.map_cons]
    exact (zip_fst_sublist l1 l2).cons₂ a

/-- C2: the aligned axis is the sorted duplicate-free union of the input
year axes; every aligned sequence has the axis's length, is null at every
axis year the series does not cover, and alignment is lossless — looking up
a pair's year in the axis returns exactly the original value. -/
theorem C2_series_aligner (seriesList : List YearSeries)
    (hsorted : ∀ t ∈ seriesList, t.years.Sorted (· < ·)) :
    (unionYears (seriesList.map YearSeries.years)).Sorted (· < ·)
    ∧ (∀ z : ℤ, z ∈ unionYears (seriesList.map YearSeries.years)
        ↔ ∃ t ∈ seriesList, z ∈ t.years)
    ∧ (∀ t ∈ seriesList,
        (makeAligned (unionYears (seriesList.map YearSeries.years)) t.years t.values).length
          = (unionYears (seriesList.map YearSeries.years)).length)
    ∧ (∀ t ∈ seriesList, ∀ z ∈ unionYears (seriesList.map YearSeries.years), z ∉ t.years →
        (makeAligned (unionYears (seriesList.map YearSeries.years)) t.years
            t.values)[(unionYears (seriesList.map YearSeries.years)).indexOf z]?
          = some none)
    ∧ (∀ t ∈ seriesList, ∀ (y : ℤ) (v : ℝ), (y, v) ∈ t.years.zip t.values →
        (makeAligned (unionYears (seriesList.map YearSeries.years)) t.years
            t.values)[(unionYears (seriesList.map YearSeries.years)).indexOf y]?
          = some (some v)) := by
  have hmem : ∀ z : ℤ, z ∈ unionYears (seriesList.map YearSeries.years)
      ↔ ∃ t ∈ seriesList, z ∈ t.years := by
    intro z
    rw [mem_unionYears]
    constructor
    · rintro ⟨l, hl, hz⟩
      rcases List.mem_map.mp hl with ⟨t, ht, rfl⟩
      exact ⟨t, ht, hz⟩
    · rintro ⟨t, ht, hz⟩
      exact ⟨t.years, List.mem_map_of_mem YearSeries.years ht, hz⟩
  refine ⟨unionYears_sorted _, hmem, ?_, ?_, ?_⟩
  · intro t _
    rw [makeAligned, List.length_map]
  · intro t _ z hz hznot
    have hlt : (unionYears (seriesList.map YearSeries.years)).indexOf z
        < (unionYears (seriesList.map YearSeries.years)).length :=
      List.indexOf_lt_length.mpr hz
    rw [makeAligned, List.getElem?_map, List.getElem?_eq_getElem hlt, Option.map_some',
      List.getElem_indexOf hlt]
    rw [mapGet_eq_none]
    rintro ⟨a, b⟩ hp ha
    exact hznot (ha ▸ (List.of_mem_zip hp).1)
  · intro t ht y v hyv
    have hy : y ∈ t.years := (List.of_mem_zip hyv).1
    have hyax : y ∈ unionYears (seriesList.map YearSeries.years) :=
      (hmem y).mpr ⟨t, ht, hy⟩
    have hlt : (unionYears (seriesList.map YearSeries.years)).indexOf y
        < (unionYears (seriesList.map YearSeries.years)).length :=
      List.indexOf_lt_length.mpr hyax
    rw [makeAligned, List.getElem?_map, List.getElem?_eq_getElem hlt, Option.map_some',
      List.getElem_indexOf hlt]
    have hnd : ((t.years.zip t.values).map Prod.fst).Nodup :=
      List.Nodup.sublist (zip_fst_sublist _ _) (hsorted t ht).nodup
    rw [mapGet_eq_some _ _ _ hnd hyv]

/-- Witness for C2 at the spec's own example: series `[2020, 2021]` /
`[2021, 2022]` align onto the axis `[2020, 2021, 2022]`. -/
theorem C2_series_aligner_witness :
    (unionYears ([⟨[2020, 2021], [1, 2]⟩,
        (⟨[2021, 2022], [3, 4]⟩ : YearSeries)].map YearSeries.years)).Sorted (· < ·)
    ∧ (∀ z : ℤ, z ∈ unionYears ([⟨[2020, 2021], [1, 2]⟩,
          (⟨[2021, 2022], [3, 4]⟩ : YearSeries)].map YearSeries.years)
        ↔ ∃ t ∈ [⟨[2020, 2021], [1, 2]⟩,
            (⟨[2021, 2022], [3, 4]⟩ : YearSeries)], z ∈ t.years)
    ∧ (∀ t ∈ [⟨[2020, 2021], [1, 2]⟩, (⟨[2021, 2022], [3, 4]⟩ : YearSeries)],
        (makeAligned (unionYears ([⟨[2020, 2021], [1, 2]⟩,
              (⟨[2021, 2022], [3, 4]⟩ : YearSeries)].map YearSeries.years)) t.years
            t.values).length
          = (unionYears ([⟨[2020, 2021], [1, 2]⟩,
              (⟨[2021, 2022], [3, 4]⟩ : YearSeries)].map YearSeries.years)).length)
    ∧ (∀ t ∈ [⟨[2020, 2021], [1, 2]⟩, (⟨[2021, 2022], [3, 4]⟩ : YearSeries)],
        ∀ z ∈ unionYears ([⟨[2020, 2021], [1, 2]⟩,
            (⟨[2021, 2022], [3, 4]⟩ : YearSeries)].map YearSeries.years), z ∉ t.years →
        (makeAligned (unionYears ([⟨[2020, 2021], [1, 2]⟩,
              (⟨[2021, 2022], [3, 4]⟩ : YearSeries)].map YearSeries.years)) t.years
            t.values)[(unionYears ([⟨[2020, 2021], [1, 2]⟩,
              (⟨[2021, 2022], [3, 4]⟩ : YearSeries)].map YearSeries.years)).indexOf z]?
          = some none)
    ∧ (∀ t ∈ [⟨[2020, 2021], [1, 2]⟩, (⟨[2021, 2022], [3, 4]⟩ : YearSeries)],
        ∀ (y : ℤ) (v : ℝ), (y, v) ∈ t.years.zip t.values →
        (makeAligned (unionYears ([⟨[2020, 2021], [1, 2]⟩,
              (⟨[2021, 2022], [3, 4]⟩ : YearSeries)].map YearSeries.years)) t.years
            t.values)[(unionYears ([⟨[2020, 2021], [1, 2]⟩,
              (⟨[2021, 2022], [3, 4]⟩ : YearSeries)].map YearSeries.years)).indexOf y]?
          = some (some v)) :=
  C2_series_aligner [⟨[2020, 2021], [1, 2]⟩, ⟨[2021, 2022], [3, 4]⟩]
    (by
      intro t ht
      rcases List.mem_cons.mp ht with rfl | ht2
      · decide
      rcases List.mem_cons.mp ht2 with rfl | ht3
      · decide
      · exact absurd ht3 (List.not_mem_nil t))

/-! ## Tidier lemmas -/

theorem tidyBlocks_eq_flatMap (header : List String) (years : List ℤ)
    (rows : List (List String)) :
    tidyBlocks header years rows
      = (blockRows rows).flatMap (fun b => years.map (blockRecord header b)) := by
  induction rows using blockRows.induct with
  | case1 => rfl
  | case2 row rest hc ih =>
    rw [tidyBlocks.eq_def, blockRows.eq_def]
    simp only [if_pos hc]
    exact ih
  | case3 row h =>
    rw [tidyBlocks.eq_def, blockRows.eq_def]
    simp only [if_neg h]
    simp
  | case4 row h r1 =>
    rw [tidyBlocks.eq_def, blockRows.eq_def]
    simp only [if_neg h]
    simp
  | case5 row h r1 r2 rest2 ih =>
    rw [tidyBlocks.eq_def, blockRows.eq_def]
    simp only [if_neg h]
    simp only [List.flatMap_cons, ih]

theorem length_flatMap_const {α β : Type} (l : List α) (f : α → List β) (n : ℕ)
    (h : ∀ a ∈ l, (f a).length = n) : (l.flatMap f).length = l.length * n := by
  induction l with
  | nil => simp
  | cons a l ih =>
    rw [List.flatMap_cons, List.length_append, h a (List.mem_cons_self _ _),
      ih (fun b hb => h b (List.mem_cons_of_mem _ hb)), List.length_cons]
    ring

/-- C7: the tidier's cursor loop is exactly block segmentation — the output
is the concatenation, in block order, of one record per target year per
non-empty-company block (so each block yields `|years|` records in the
year-list order, ascending for ascending target lists), and a row with an
empty company cell is skipped by advancing a single row. -/
theorem C7_tidy_blocks (header : List String) (years : List ℤ) (rows : List (List String))
    (row : List String) (hrow : row.head?.getD "" = "") :
    tidyPanel (header :: rows) years
        = (blockRows rows).flatMap (fun b => years.map (blockRecord header b))
    ∧ (tidyPanel (header :: rows) years).length = (blockRows rows).length * years.length
    ∧ (∀ b : List String × List String × List String,
        (years.map (blockRecord header b)).map TidyRecord.Year = years)
    ∧ tidyBlocks header years (row :: rows) = tidyBlocks header years rows := by
  have hflat := tidyBlocks_eq_flatMap header years rows
  refine ⟨hflat, ?_, ?_, ?_⟩
  · show (tidyBlocks header years rows).length = _
    rw [hflat]
    exact length_flatMap_const _ _ _ (fun b _ => List.length_map _ _)
  · intro b
    rw [List.map_map]
    have : (TidyRecord.Year ∘ blockRecord header b) = fun y => y := by
      funext y
      rfl
    rw [this, List.map_id']
  · rw [tidyBlocks.eq_def]
    simp only [if_pos hrow]

/-- Witness for C7 with a one-block table and a skipped blank row. -/
theorem C7_tidy_blocks_witness :
    tidyPanel (["Company", "Metric", "2020"] :: [["Acme", "Market Cap ($bn)", "10"]]) [2020]
        = (blockRows [["Acme", "Market Cap ($bn)", "10"]]).flatMap
            (fun b => [(2020 : ℤ)].map (blockRecord ["Company", "Metric", "2020"] b))
    ∧ (tidyPanel (["Company", "Metric", "2020"] :: [["Acme", "Market Cap ($bn)", "10"]])
          [2020]).length
        = (blockRows [["Acme", "Market Cap ($bn)", "10"]]).length * [(2020 : ℤ)].length
    ∧ (∀ b : List String × List String × List String,
        ([(2020 : ℤ)].map (blockRecord ["Company", "Metric", "2020"] b)).map TidyRecord.Year
          = [(2020 : ℤ)])
    ∧ tidyBlocks ["Company", "Metric", "2020"] [2020] ([""] :: [["Acme", "Market Cap ($bn)", "10"]])
        = tidyBlocks ["Company", "Metric", "2020"] [2020] [["Acme", "Market Cap ($bn)", "10"]] :=
  C7_tidy_blocks ["Company", "Metric", "2020"] [2020] [["Acme", "Market Cap ($bn)", "10"]]
    [""] (by decide)

/-- C6 counterexample: with target year 2035 absent from the header, the
tidy output still contains a record for 2035 (with all metrics null), so
"no record for that year" fails on the code. -/
theorem C6_unrecognized_year_counterexample :
    tidyPanel [["Company", "Metric", "1996"], ["Acme", "Market Cap ($bn)", "10"],
        ["", "Revenue ($bn)", "5"], ["", "Valuation/Revenue", "2"]] [2035]
      = [⟨"Acme", 2035, none, none, none⟩]
    ∧ jsIndexOf ["Company", "Metric", "1996"] (toString (2035 : ℤ)) = -1
    ∧ ¬ (∀ r ∈ tidyPanel [["Company", "Metric", "1996"], ["Acme", "Market Cap ($bn)", "10"],
        ["", "Revenue ($bn)", "5"], ["", "Valuation/Revenue", "2"]] [2035], r.Year ≠ 2035) := by
  refine ⟨by decide, by decide, ?_⟩
  intro h
  exact (h ⟨"Acme", 2035, none, none, none⟩ (by decide)) rfl

/-- C6 as amended: a target year missing from the header still yields one
record per company block, carrying that year and all three metrics null
(JS reads index `-1` as `undefined`, which parses to null); this is not an
error. -/
theorem C6_unrecognized_year_amended (header : List String) (years : List ℤ)
    (rows : List (List String)) (y : ℤ)
    (hy : jsIndexOf header (toString y) = -1) :
    (∀ r ∈ tidyPanel (header :: rows) years, r.Year = y →
        r.MarketCap = none ∧ r.Revenue = none ∧ r.ValRev = none)
    ∧ (tidyPanel (header :: rows) years).countP (fun r => r.Year == y)
        = (blockRows rows).length * years.count y := by
  have hcell : ∀ (b : List String × List String × List String),
      blockRecord header b y = ⟨b.1.head?.getD "", y, none, none, none⟩ := by
    intro b
    rw [blockRecord]
    have hnone : ∀ (row : List String), getCell row (jsIndexOf header (toString y)) = none := by
      intro row
      rw [hy, getCell, if_neg (by norm_num)]
    rw [hnone, hnone, hnone]
    rfl
  constructor
  · intro r hr hyear
    rw [show tidyPanel (header :: rows) years = tidyBlocks header years rows from rfl,
      tidyBlocks_eq_flatMap] at hr
    rcases List.mem_flatMap.mp hr with ⟨b, _, hrb⟩
    rcases List.mem_map.mp hrb with ⟨y', _, rfl⟩
    have hy' : y' = y := hyear
    rw [hy', hcell b]
    exact ⟨rfl, rfl, rfl⟩
  · rw [show tidyPanel (header :: rows) years = tidyBlocks header years rows from rfl,
      tidyBlocks_eq_flatMap, List.countP_flatMap]
    have hone : ∀ (b : List String × List String × List String),
        ((List.countP fun r : TidyRecord => r.Year == y)
            ∘ fun b => years.map (blockRecord header b)) b
          = years.count y := by
      intro b
      have hfun : ((fun r : TidyRecord => r.Year == y) ∘ blockRecord header b)
          = (fun z : ℤ => z == y) := by
        funext z
        rfl
      simp only [Function.comp_apply, List.countP_map, hfun]
      rfl
    rw [List.map_congr_left (fun b _ => hone b), List.map_const', List.sum_replicate,
      smul_eq_mul]

/-- Witness for C6's amended theorem: year 2035 against a 1996 header. -/
theorem C6_unrecognized_year_amended_witness :
    (∀ r ∈ tidyPanel (["Company", "Metric", "1996"]
          :: [["Acme", "Market Cap ($bn)", "10"]]) [2035],
        r.Year = 2035 → r.MarketCap = none ∧ r.Revenue = none ∧ r.ValRev = none)
    ∧ (tidyPanel (["Company", "Metric", "1996"]
          :: [["Acme", "Market Cap ($bn)", "10"]]) [2035]).countP (fun r => r.Year == 2035)
        = (blockRows [["Acme", "Market Cap ($bn)", "10"]]).length * [(2035 : ℤ)].count 2035 :=
  C6_unrecognized_year_amended ["Company", "Metric", "1996"] [2035]
    [["Acme", "Market Cap ($bn)", "10"]] 2035 (by decide)

/-! ## Scenario lemmas -/

theorem scenarioFrom_years (g : ℚ) :
    ∀ (n : ℕ) (y0 : ℤ) (x : ℝ),
      (scenarioFrom y0 n x g).1 = (List.range n).map (fun (k : ℕ) => y0 + (k : ℤ)) := by
  intro n
  induction n with
  | zero => intro y0 x; rfl
  | succ m ih =>
    intro y0 x
    rw [scenarioFrom]
    dsimp only
    rw [ih (y0 + 1), List.range_succ_eq_map, List.map_cons, List.map_map]
    refine congrArg₂ _ (by norm_num) ?_
    apply List.map_congr_left
    intro k _
    simp only [Function.comp_apply]
    push_cast
    ring

theorem scenarioFrom_values (g : ℚ) :
    ∀ (n : ℕ) (y0 : ℤ) (x : ℝ),
      (scenarioFrom y0 n x g).2
        = (List.range n).map (fun k => Real.log (x * (1 + (g : ℝ) / 100) ^ (k + 1))) := by
  intro n
  induction n with
  | zero => intro y0 x; rfl
  | succ m ih =>
    intro y0 x
    rw [scenarioFrom]
    dsimp only
    rw [ih (y0 + 1), List.range_succ_eq_map, List.map_cons, List.map_map]
    refine congrArg₂ _ (by rw [pow_one]) ?_
    apply List.map_congr_left
    intro k _
    simp only [Function.comp_apply]
    congr 1
    rw [Nat.succ_eq_add_one]
    ring

/-- C4: the projector exponentiates the last log value back to linear
scale and the k-th projected value is `ln(exp(L)·(1+r)^k)`; over a two-year
horizon from `ln 20` at rate `0.1` the values are `[ln 22, ln 24.2]`; a
cohort with no valid observation yields the empty scenario series. -/
theorem C4_scenario_projector (L : ℝ) (g : ℚ) (n : ℕ) (y0 : ℤ) (s : List (Option ℝ))
    (hs : s.filterMap id = []) :
    (scenarioFrom y0 n (Real.exp L) g).2
        = (List.range n).map (fun k => Real.log (Real.exp L * (1 + (g : ℝ) / 100) ^ (k + 1)))
    ∧ (scenarioFrom y0 2 (Real.exp (Real.log 20)) 10).2 = [Real.log 22, Real.log 24.2]
    ∧ scenario s g = ([], []) := by
  refine ⟨scenarioFrom_values g n y0 (Real.exp L), ?_, ?_⟩
  · rw [scenarioFrom_values 10 2 y0 (Real.exp (Real.log 20)),
      Real.exp_log (by norm_num : (0 : ℝ) < 20),
      show List.range 2 = [0, 1] from rfl, List.map_cons, List.map_cons, List.map_nil]
    have e1 : (20 : ℝ) * (1 + ((10 : ℚ) : ℝ) / 100) ^ ((0 : ℕ) + 1) = 22 := by
      norm_num
    have e2 : (20 : ℝ) * (1 + ((10 : ℚ) : ℝ) / 100) ^ ((1 : ℕ) + 1) = 24.2 := by
      norm_num
    rw [e1, e2]
  · unfold scenario
    rw [hs]
    rfl

/-- Witness for C4: horizon 1 from log value 0, plus the empty cohort. -/
theorem C4_scenario_projector_witness :
    (scenarioFrom 2025 1 (Real.exp 0) 10).2
        = (List.range 1).map
            (fun k => Real.log (Real.exp 0 * (1 + ((10 : ℚ) : ℝ) / 100) ^ (k + 1)))
    ∧ (scenarioFrom 2025 2 (Real.exp (Real.log 20)) 10).2 = [Real.log 22, Real.log 24.2]
    ∧ scenario [] 10 = ([], []) :=
  C4_scenario_projector 0 10 1 2025 [] rfl

/-- C8 counterexample: for the aligned cohort `years = [2025]`,
`values = [some 0]` the last observed year is 2025, yet the first projected
year is also 2025 — the projected years are not strictly greater than the
last observed year and do not start immediately after it. -/
theorem C8_scenario_years_counterexample :
    lastObservedYear [2025] [some 0] = some 2025
    ∧ (scenario [some 0] 18).1 = [2025, 2026, 2027, 2028, 2029, 2030, 2031, 2032]
    ∧ ¬ (∀ y ∈ (scenario [some 0] 18).1, ∀ ly : ℤ,
          lastObservedYear [2025] [some 0] = some ly → ly < y) := by
  have h0 : scenario [some 0] 18 = scenarioFrom 2025 8 (Real.exp 0) 18 := by
    unfold scenario
    rfl
  have h1 : (scenario [some 0] 18).1 = [2025, 2026, 2027, 2028, 2029, 2030, 2031, 2032] := by
    rw [h0, scenarioFrom_years]
    rfl
  refine ⟨rfl, h1, ?_⟩
  intro hall
  have h2025 : (2025 : ℤ) ∈ (scenario [some 0] 18).1 := by
    rw [h1]
    exact List.mem_cons_self _ _
  exact absurd (hall 2025 h2025 2025 rfl) (lt_irrefl 2025)

/-- C8 as amended: whenever the cohort has at least one valid observation,
the projected years are the fixed ascending range 2025..2032, independent
of the cohort's last observed year; a projected year may therefore coincide
with an observed year (it does whenever 2025 is observed). -/
theorem C8_scenario_years_amended (s : List (Option ℝ)) (g : ℚ)
    (hs : ¬ s.filterMap id = []) :
    (scenario s g).1 = [2025, 2026, 2027, 2028, 2029, 2030, 2031, 2032] := by
  rcases hlast : (s.filterMap id).getLast? with _ | lastLog
  · rw [List.getLast?_eq_none_iff] at hlast
    exact absurd hlast hs
  · have h0 : scenario s g = scenarioFrom 2025 8 (Real.exp lastLog) g := by
      unfold scenario
      rw [hlast]
    rw [h0, scenarioFrom_years]
    rfl

/-- Witness for C8's amended theorem on a one-observation cohort. -/
theorem C8_scenario_years_amended_witness :
    (scenario [some 0] 18).1 = [2025, 2026, 2027, 2028, 2029, 2030, 2031, 2032] :=
  C8_scenario_years_amended [some 0] 18 (by simp)

/-! ## Parsing theorems (C5) -/

/-- C5 counterexample: `"0"` is a well-formed finite numeric cell
(`Number("0") = 0`), yet the `tidyPanelJS` parse `Number(cell) || null`
maps it to null instead of the number 0. -/
theorem C5_parse_counterexample :
    jsNumberChars "0".data = some 0 ∧ tidyNum (some "0") = none := by
  have h : jsNumCore "0".data = some ⟨0, 0, 0⟩ := by decide
  constructor
  · simp only [jsNumberChars, h, Option.map_some']
    norm_num [JsNum.toRat]
  · rw [tidyNum_eval "0" ⟨0, 0, 0⟩ h]
    norm_num [JsNum.toRat]

/-- C5 as amended: `parseNumber` strips quotes and comma separators,
returns the number of every well-formed finite numeric cell (including
`"0"`), maps case-insensitive `n/a`, blank, missing and non-numeric cells
to null, and is total (it never throws); the legacy `tidyPanelJS` inline
parse `Number(cell) || null` additionally collapses the value 0 to null and
does not strip commas or quotes, so the guarantee holds only for the
`parseNumber`-based path. -/
theorem C5_parse_amended :
    parseNumber none = none
    ∧ parseNumber (some "") = none
    ∧ parseNumber (some "   ") = none
    ∧ parseNumber (some "n/a") = none
    ∧ parseNumber (some "N/A") = none
    ∧ parseNumber (some "n/A") = none
    ∧ parseNumber (some "abc") = none
    ∧ parseNumber (some "12..5") = none
    ∧ parseNumber (some "0") = some 0
    ∧ parseNumber (some "\"1,234\"") = some 1234
    ∧ parseNumber (some "\"12.5\"") = some (25 / 2)
    ∧ parseNumber (some "1,000,000") = some 1000000
    ∧ tidyNum (some "0") = none
    ∧ tidyNum (some "1,234") = none
    ∧ tidyNum (some "12") = some 12 := by
  refine ⟨rfl, by decide, by decide, by decide, by decide, by decide, by decide, by decide,
    ?_, ?_, ?_, ?_, ?_, by decide, ?_⟩
  · rw [parseNumber_eval "0" ⟨0, 0, 0⟩ (by decide) (by decide) (by decide)]
    norm_num [JsNum.toRat]
  · rw [parseNumber_eval "\"1,234\"" ⟨1234, 0, 0⟩ (by decide) (by decide) (by decide)]
    norm_num [JsNum.toRat]
  · rw [parseNumber_eval "\"12.5\"" ⟨125, 1, 0⟩ (by decide) (by decide) (by decide)]
    norm_num [JsNum.toRat]
  · rw [parseNumber_eval "1,000,000" ⟨1000000, 0, 0⟩ (by decide) (by decide) (by decide)]
    norm_num [JsNum.toRat]
  · rw [tidyNum_eval "0" ⟨0, 0, 0⟩ (by decide)]
    norm_num [JsNum.toRat]
  · rw [tidyNum_eval "12" ⟨12, 0, 0⟩ (by decide)]
    norm_num [JsNum.toRat]

end Bubble
